import Mathlib

/-!
# Verification of the hashnode-cli reconciliation engine

A shallow embedding, in Lean 4, of the core state-management code of the
`hashnode-cli` repository: the content-addressable snapshot store, the
staging area, the ledger (`hashnode.sum`) and its deterministic
serialization, the diff engine, and the transactional applier.

Conventions of the embedding:

* Go byte slices (`[]byte`) are `List Nat`, each element a byte value.
* Files on disk are modelled as association lists from file name (or
  repository-relative path) to contents.  All paths in the model are
  already in normalized, repository-relative, forward-slash form, so the
  source's `NormalizePath` / `filepath.Abs` plumbing is the identity and
  is not re-modelled.
* `crypto/sha256` + `encoding/hex` are embedded as an executable SHA-256
  over `Nat` with explicit reduction modulo `2^32`.
* Fallible Go functions returning `(T, error)` become `Except String T`
  or `Option T`.
-/

namespace HashnodeCLI

/-- Go `[]byte`: a list of byte values (each `< 256` in intended use). -/
abbrev ByteSeq := List Nat

namespace SHA256

/-- The word modulus of SHA-256, 2^32. -/
def w32 : Nat := 4294967296

/-- Addition on 32-bit words (Go's uint32 addition). -/
def add32 (a b : Nat) : Nat := (a + b) % w32

/-- Rotate right on 32-bit words. -/
def rotr (n x : Nat) : Nat := ((x >>> n) ||| (x <<< (32 - n))) % w32

/-- Logical shift right. -/
def shr (n x : Nat) : Nat := x >>> n

/-- Bitwise complement of a 32-bit word. -/
def not32 (x : Nat) : Nat := x ^^^ 0xffffffff

/-- The 64 SHA-256 round constants, in decimal. -/
def K : List Nat :=
  [1116352408, 1899447441, 3049323471, 3921009573, 961987163,
   1508970993, 2453635748, 2870763221, 3624381080, 310598401,
   607225278, 1426881987, 1925078388, 2162078206, 2614888103,
   3248222580, 3835390401, 4022224774, 264347078, 604807628,
   770255983, 1249150122, 1555081692, 1996064986, 2554220882,
   2821834349, 2952996808, 3210313671, 3336571891, 3584528711,
   113926993, 338241895, 666307205, 773529912, 1294757372,
   1396182291, 1695183700, 1986661051, 2177026350, 2456956037,
   2730485921, 2820302411, 3259730800, 3345764771, 3516065817,
   3600352804, 4094571909, 275423344, 430227734, 506948616,
   659060556, 883997877, 958139571, 1322822218, 1537002063,
   1747873779, 1955562222, 2024104815, 2227730452, 2361852424,
   2428436474, 2756734187, 3204031479, 3329325298]

/-- The initial hash state, in decimal. -/
def H0 : List Nat :=
  [1779033703, 3144134277, 1013904242, 2773480762,
   1359893119, 2600822924, 528734635, 1541459225]

/-- Number of zero bytes of padding for a message of `len` bytes. -/
def padZeroLen (len : Nat) : Nat := (64 - ((len + 9) % 64)) % 64

/-- Big-endian byte encoding of `n` in `len` bytes. -/
def toBytesBE (n len : Nat) : List Nat :=
  (List.range len).map (fun i => (n >>> (8 * (len - 1 - i))) % 256)

/-- SHA-256 message padding: `0x80`, zeros, then the 64-bit bit length. -/
def pad (msg : ByteSeq) : ByteSeq :=
  msg ++ [0x80] ++ List.replicate (padZeroLen msg.length) 0 ++ toBytesBE (8 * msg.length) 8

/-- Split a byte list into 64-byte blocks. -/
def chunks (l : ByteSeq) : List ByteSeq :=
  if h : l = [] then []
  else l.take 64 :: chunks (l.drop 64)
termination_by l.length
decreasing_by
  simp only [List.length_drop]
  have : 0 < l.length := List.length_pos.mpr h
  omega

/-- Pack (up to) four bytes into a big-endian 32-bit word. -/
def word4 (l : List Nat) : Nat :=
  match l with
  | [a, b, c, d] => ((a % 256) * 16777216 + (b % 256) * 65536 + (c % 256) * 256 + d % 256) % w32
  | _ => 0

/-- The 16 words of a 64-byte block. -/
def toWords (block : ByteSeq) : List Nat :=
  (List.range 16).map (fun i => word4 ((block.drop (4 * i)).take 4))

/-- Small sigma 0. -/
def s0 (x : Nat) : Nat := (rotr 7 x) ^^^ (rotr 18 x) ^^^ (shr 3 x)

/-- Small sigma 1. -/
def s1 (x : Nat) : Nat := (rotr 17 x) ^^^ (rotr 19 x) ^^^ (shr 10 x)

/-- Big sigma 0. -/
def S0 (x : Nat) : Nat := (rotr 2 x) ^^^ (rotr 13 x) ^^^ (rotr 22 x)

/-- Big sigma 1. -/
def S1 (x : Nat) : Nat := (rotr 6 x) ^^^ (rotr 11 x) ^^^ (rotr 25 x)

/-- Extend 16 schedule words to 64. -/
def schedule (ws : List Nat) : List Nat :=
  (List.range 48).foldl
    (fun acc _ =>
      let n := acc.length
      let wi := add32 (add32 (s1 (acc.getD (n - 2) 0)) (acc.getD (n - 7) 0))
                      (add32 (s0 (acc.getD (n - 15) 0)) (acc.getD (n - 16) 0))
      acc ++ [wi])
    ws

/-- One round of the SHA-256 compression function. -/
def compressStep (st : List Nat) (kw : Nat × Nat) : List Nat :=
  match st with
  | [a, b, c, d, e, f, g, h] =>
    let ch := (e &&& f) ^^^ ((not32 e) &&& g)
    let maj := (a &&& b) ^^^ (a &&& c) ^^^ (b &&& c)
    let t1 := add32 (add32 (add32 h (S1 e)) (add32 ch kw.1)) kw.2
    let t2 := add32 (S0 a) maj
    [add32 t1 t2, a, b, c, add32 d t1, e, f, g]
  | other => other

/-- Process one 64-byte block, updating the eight-word hash state. -/
def processBlock (h : List Nat) (block : ByteSeq) : List Nat :=
  let w := schedule (toWords block)
  let st := (K.zip w).foldl compressStep h
  List.zipWith add32 h st

/-- SHA-256 digest of a byte sequence, as 32 bytes. -/
def sha256 (msg : ByteSeq) : ByteSeq :=
  let hs := (chunks (pad msg)).foldl processBlock H0
  hs.flatMap (fun wd => toBytesBE wd 4)

/-- A lowercase hexadecimal digit. -/
def hexDigit (n : Nat) : Char :=
  if n < 10 then Char.ofNat (48 + n) else Char.ofNat (87 + n % 16)

/-- Two lowercase hex characters for one byte (Go `encoding/hex`). -/
def byteHex (b : Nat) : List Char :=
  [hexDigit ((b / 16) % 16), hexDigit (b % 16)]

end SHA256

/-- Lowercase hex SHA-256 of a byte sequence: the composition of Go's
`sha256.Sum256` and `hex.EncodeToString` used throughout the source. -/
def sha256hex (msg : ByteSeq) : String :=
  String.mk ((SHA256.sha256 msg).flatMap SHA256.byteHex)

/-- Model of `state.ChecksumFromContent` (articles.go): SHA-256 checksum hex of
the provided content. -/
def ChecksumFromContent (content : ByteSeq) : String := sha256hex content

/-! ## Directories

A directory is an association list from file name to contents; in intended
use the names are distinct (a real directory has unique names). -/

/-- A directory of files: file name ↦ contents. -/
abbrev Dir := List (String × ByteSeq)

/-- Look a file up by name. -/
def findFile : Dir → String → Option ByteSeq
  | [], _ => none
  | (n, c) :: t, k => if n = k then some c else findFile t k

/-- Remove a file by name (`os.Remove`; a directory has unique names, so
removing every entry with the name is the same as removing the file). -/
def removeFile : Dir → String → Dir
  | [], _ => []
  | (n, c) :: t, k => if n = k then removeFile t k else (n, c) :: removeFile t k

/-- Go `strings.HasPrefix`, structurally on the character list. -/
def strStartsWith (s pre : String) : Bool := pre.data.isPrefixOf s.data

/-- Go `strings.HasSuffix` / `filepath.Ext` suffix test, structurally on
the character list. -/
def strEndsWith (s post : String) : Bool := post.data.isSuffixOf s.data

/-- ASCII lowercase of one character. -/
def lowerChar (c : Char) : Char :=
  if 65 ≤ c.toNat ∧ c.toNat ≤ 90 then Char.ofNat (c.toNat + 32) else c

/-- Go `strings.ToLower`, on the ASCII range the file names live in. -/
def strToLower (s : String) : String := String.mk (s.data.map lowerChar)

/-- Go `strings.TrimSuffix`: drop `suffix` from the end of `s` when present. -/
def trimSuffix (s suffix : String) : String :=
  if suffix.data <:+ s.data then
    String.mk (s.data.take (s.data.length - suffix.data.length))
  else s

/-! ## Stage and lock data (unified `items` schema, stage.go)

The staging timestamp and the cached article metadata fields of
`StagedItem` are not modelled: no claim depends on them. -/

/-- Model of `state.ItemType`. -/
inductive ItemType
  | article
  | series
deriving DecidableEq, Repr

/-- Model of `state.Operation`: staged intent. -/
inductive Operation
  | modify
  | delete
deriving DecidableEq, Repr

/-- Model of `state.StagedItem`: a unit of work waiting to be planned. -/
structure StagedItem where
  type : ItemType
  key : String
  checksum : String := ""
  snapshot : String := ""
  operation : Operation
deriving DecidableEq, Repr

/-- Model of `state.Stage`: the declarative staging area, `items` keyed by
normalized path. -/
structure Stage where
  version : Nat := 2
  items : List (String × StagedItem) := []
deriving DecidableEq, Repr

/-- Look a staged item up by its normalized path key. -/
def Stage.find (st : Stage) (key : String) : Option StagedItem :=
  match st.items.find? (fun e => e.1 = key) with
  | some e => some e.2
  | none => none

/-- A staged article recorded in the lock file, as read by the snapshot
store's reference scan (`lock.Staged.Articles`); only the snapshot
reference matters to GC. -/
structure LockArticle where
  snapshot : String := ""
deriving DecidableEq, Repr

/-- Model of `state.LockData`: the parsed lock file (pid and timestamp omitted). -/
structure LockData where
  staged : List (String × LockArticle) := []
deriving DecidableEq, Repr

/-! ## Snapshot store (snapshot.go, embedded in frontmatter_test.go) -/

/-- Model of `state.Snapshot`: metadata returned for a stored snapshot.  The
`CreatedAt` wall-clock field is not modelled. -/
structure Snapshot where
  checksum : String
  filename : String
  size : Nat
deriving DecidableEq, Repr

namespace SnapshotStore

/-- Model of `SnapshotStore.Create`: compute the content checksum, reuse the file
if it exists (returning the existing file's size), otherwise write the
content atomically under `{checksum}.md`. -/
def Create (dir : Dir) (content : ByteSeq) : Snapshot × Dir :=
  let checksum := sha256hex content
  let filename := checksum ++ ".md"
  match findFile dir filename with
  | some existing => ({ checksum, filename, size := existing.length }, dir)
  | none => ({ checksum, filename, size := content.length }, dir ++ [(filename, content)])

/-- Model of `SnapshotStore.Get`: read a snapshot's contents. -/
def Get (dir : Dir) (filename : String) : Except String ByteSeq :=
  if filename = "" then .error "snapshot filename is empty"
  else
    match findFile dir filename with
    | some content => .ok content
    | none => .error "failed to read snapshot"

/-- Model of `SnapshotStore.Validate`: re-hash the contents and compare with the
checksum encoded in the file name. -/
def Validate (dir : Dir) (filename : String) : Except String Unit :=
  match Get dir filename with
  | .error e => .error e
  | .ok content =>
    let expectedChecksum := trimSuffix filename ".md"
    let actualChecksum := sha256hex content
    if actualChecksum = expectedChecksum then .ok ()
    else .error "snapshot integrity check failed"

/-- Model of `SnapshotStore.Delete`: remove a snapshot file; an absent file or an
empty name is not an error. -/
def Delete (dir : Dir) (filename : String) : Dir :=
  if filename = "" then dir else removeFile dir filename

/-- One character of the snapshot-name pattern `(?i)[a-f0-9]`. -/
def isHexChar (c : Char) : Bool :=
  (48 ≤ c.toNat && c.toNat ≤ 57) || (97 ≤ c.toNat && c.toNat ≤ 102) ||
    (65 ≤ c.toNat && c.toNat ≤ 70)

/-- The file-name filter of `SnapshotStore.List`: the regular expression
`(?i)^[a-f0-9]{64}\.md$`. -/
def isSnapshotName (name : String) : Bool :=
  let cs := name.data
  decide (cs.length = 67) && (cs.take 64).all isHexChar &&
    decide (cs.drop 64 = ['.', 'm', 'd'])

/-- Model of `SnapshotStore.List`: the snapshot file names in the store, in
directory order, keeping only names matching the 64-hex pattern. -/
def ListFiles (dir : Dir) : List String :=
  (dir.filter (fun e => isSnapshotName e.1)).map (fun e => e.1)

/-- Insertion into the reference set (`map[string]bool` in the source:
inserting an existing key changes nothing). -/
def insertRef (acc : List String) (s : String) : List String :=
  if s ∈ acc then acc else acc ++ [s]

/-- Fold the non-empty snapshot references of a record list into the
reference set, lowercased. -/
def refFold {γ : Type} (g : γ → String) (l : List γ) (init : List String) : List String :=
  l.foldl (fun acc e => if g e ≠ "" then insertRef acc (strToLower (g e)) else acc) init

/-- Model of `SnapshotStore.buildReferenceSet`: all snapshot references found in
the stage items and then in the lock's staged articles, lowercased. -/
def buildReferenceSet (st : Stage) (lock : LockData) : List String :=
  refFold (fun e => e.2.snapshot) lock.staged
    (refFold (fun e => e.2.snapshot) st.items [])

/-- Model of `state.GCStats` (the `Errors` slice is modelled by a count; the
modelled `Delete` cannot fail, so it stays zero). -/
structure GCStats where
  totalSnapshots : Nat := 0
  referencedCount : Nat := 0
  removedCount : Nat := 0
  removedSnapshots : List String := []
  errorsCount : Nat := 0
  skippedCount : Nat := 0
deriving DecidableEq, Repr

/-- The removal loop of `SnapshotStore.GC` over the listed snapshot
names. -/
def gcLoop (referenced : List String) (dryRun : Bool) :
    List String → GCStats → Dir → GCStats × Dir
  | [], stats, dir => (stats, dir)
  | filename :: rest, stats, dir =>
    if strToLower filename ∈ referenced then gcLoop referenced dryRun rest stats dir
    else if dryRun then
      gcLoop referenced dryRun rest
        { stats with removedSnapshots := stats.removedSnapshots ++ [filename],
                     removedCount := stats.removedCount + 1 } dir
    else
      gcLoop referenced dryRun rest
        { stats with removedSnapshots := stats.removedSnapshots ++ [filename],
                     removedCount := stats.removedCount + 1 } (Delete dir filename)

/-- Model of `SnapshotStore.GC`: list the snapshots, build the reference set from
stage and lock, return early when nothing is listed or when the reference
count reaches the listed count, otherwise remove every listed snapshot
whose lowercased name is not referenced. -/
def GC (dir : Dir) (st : Stage) (lock : LockData) (dryRun : Bool) : GCStats × Dir :=
  if (ListFiles dir).length = 0 then
    ({ totalSnapshots := (ListFiles dir).length }, dir)
  else if (buildReferenceSet st lock).length ≥ (ListFiles dir).length then
    ({ totalSnapshots := (ListFiles dir).length,
       referencedCount := (buildReferenceSet st lock).length }, dir)
  else
    gcLoop (buildReferenceSet st lock) dryRun (ListFiles dir)
      { totalSnapshots := (ListFiles dir).length,
        referencedCount := (buildReferenceSet st lock).length } dir

end SnapshotStore

/-! ## The ledger (`hashnode.sum`, sum.go)

Go maps (`map[string]SeriesEntry`, `map[string]ArticleSum`) are embedded
as association lists with distinct keys; the serializer sorts by key, so
list order (Go's unspecified map iteration order) cannot leak into the
output. -/

/-- Model of `state.SeriesEntry` (series.go). -/
structure SeriesEntry where
  seriesID : String := ""
  name : String := ""
  slug : String := ""
  description : String := ""
deriving DecidableEq, Repr

/-- Model of `state.ArticleSum` (sum.go).  The `title` field is carried by the
newer ledger schema that `SetArticleWithTitle` (called from apply.go)
writes; the sum.go in the tree lacks it, the applier requires it. -/
structure ArticleSum where
  postID : String := ""
  checksum : String := ""
  slug : String := ""
  title : String := ""
deriving DecidableEq, Repr

/-- Model of `state.BlogEntry` (sum.go). -/
structure BlogEntry where
  publicationID : String := ""
  publicationSlug : String := ""
deriving DecidableEq, Repr

/-- Model of `state.Sum` (sum.go): the deterministic mapping between repo
artifacts and remote IDs. -/
structure Sum where
  version : Nat := 0
  blog : BlogEntry := {}
  series : List (String × SeriesEntry) := []
  articles : List (String × ArticleSum) := []
deriving DecidableEq, Repr

/-- Go map lookup on the article table. -/
def lookupArticle (articles : List (String × ArticleSum)) (path : String) :
    Option ArticleSum :=
  match articles.find? (fun e => e.1 = path) with
  | some e => some e.2
  | none => none

/-- Insert or replace an association-list binding (Go map assignment). -/
def setAssoc {α : Type} : List (String × α) → String → α → List (String × α)
  | [], k, v => [(k, v)]
  | (k1, v1) :: t, k, v =>
    if k1 = k then (k, v) :: t else (k1, v1) :: setAssoc t k v

/-- Model of `Sum.SetArticleWithTitle`.  Modelled from the spec: the function is
called by the applier but its body is not in the tree; §4.2 specifies
`setArticle(path, postId, checksum, slug, title)` as insert-or-update of
the row under the normalized path. -/
def Sum.setArticleWithTitle (s : Sum) (path postID checksum slug title : String) : Sum :=
  let row : ArticleSum := { postID := postID, checksum := checksum, slug := slug, title := title }
  { s with articles := setAssoc s.articles path row }

/-- Model of `Sum.RemoveArticle` (sum.go): delete a row; a missing row is a no-op. -/
def Sum.removeArticle (s : Sum) (path : String) : Sum :=
  { s with articles := s.articles.filter (fun e => e.1 ≠ path) }

/-- Sort an association list by key (the deterministic key ordering that
`yaml.Marshal` applies to Go maps when encoding). -/
def sortByKey {α : Type} (l : List (String × α)) : List (String × α) :=
  List.insertionSort (fun a b => a.1 ≤ b.1) l

/-- One serialized series row (key plus fields, in struct-tag order). -/
def renderSeries (e : String × SeriesEntry) : String :=
  "    " ++ e.1 ++ ":\n        series_id: " ++ e.2.seriesID ++
    "\n        name: " ++ e.2.name ++ "\n        slug: " ++ e.2.slug ++
    "\n        description: " ++ e.2.description ++ "\n"

/-- One serialized article row (key plus fields, in struct-tag order;
`slug` and `title` carry `omitempty`). -/
def renderArticle (e : String × ArticleSum) : String :=
  "    " ++ e.1 ++ ":\n        post_id: " ++ e.2.postID ++
    "\n        checksum: " ++ e.2.checksum ++
    (if e.2.slug ≠ "" then "\n        slug: " ++ e.2.slug else "") ++
    (if e.2.title ≠ "" then "\n        title: " ++ e.2.title else "") ++ "\n"

/-- Model of `state.SaveSum` composed with `WriteYAML`/`yaml.Marshal` (sum.go,
io.go): normalize a zero version to 1, then emit the struct fields in
declaration order with both map regions ordered by key.  `yaml.Marshal`
encodes Go maps under a deterministic key ordering; the model uses the
lexicographic one, which is all the determinism property needs. -/
def serializeSum (s : Sum) : String :=
  let v := if s.version = 0 then 1 else s.version
  "version: " ++ toString v ++
    "\nblog:\n    publication_id: " ++ s.blog.publicationID ++
    "\n    publication_slug: " ++ s.blog.publicationSlug ++
    "\nseries:\n" ++ String.join ((sortByKey s.series).map renderSeries) ++
    "articles:\n" ++ String.join ((sortByKey s.articles).map renderArticle)

/-! ## Diff engine

Modelled from the spec: the two-argument `diff.GeneratePlan(articles, st)`
that the plan and apply commands call is not in the tree (only its callers
and an older registry-only `GeneratePlan` are), so the engine below
follows §4.4 of the specification word for word: the `byPath` and
`byChecksum` indexes, the per-item delete/create/update/skip decision, and
the rename heuristic with its copy-safeguard. -/

/-- Model of `diff.ActionType`. -/
inductive ActionType
  | create
  | update
  | skip
  | delete
deriving DecidableEq, Repr

/-- Model of `diff.PlanItem`: one typed action of a plan. -/
structure PlanItem where
  type : ActionType
  path : String
  oldPath : String := ""
  remoteID : String := ""
  reason : String := ""
  checksum : String := ""
deriving DecidableEq, Repr

/-- Modelled from the spec: the `byChecksum` index — `checksum →
normalizedPath` for every ledger article with a non-empty remote post id
(articles without a remote id are omitted to avoid false renames of
unpublished drafts). -/
def byChecksumIndex (articles : List (String × ArticleSum)) : List (String × String) :=
  articles.filterMap (fun e => if e.2.postID ≠ "" then some (e.2.checksum, e.1) else none)

/-- Lookup in the `byChecksum` index. -/
def lookupChecksum (idx : List (String × String)) (c : String) : Option String :=
  match idx.find? (fun e => e.1 = c) with
  | some e => some e.2
  | none => none

/-- Modelled from the spec: resolve the *current checksum* of a staged
modify item — prefer `item.checksum`, else hash the named snapshot, else
hash the file on disk; `none` when all three are unavailable. -/
def resolveChecksum (item : StagedItem) (snapshots disk : Dir) (path : String) :
    Option String :=
  if item.checksum ≠ "" then some item.checksum
  else
    match (if item.snapshot ≠ "" then findFile snapshots item.snapshot else none) with
    | some content => some (ChecksumFromContent content)
    | none =>
      match findFile disk path with
      | some content => some (ChecksumFromContent content)
      | none => none

/-- Modelled from the spec: the plan item emitted for one stage entry
`(path, item)` (§4.4 step 3). -/
def planItemFor (articles : List (String × ArticleSum)) (st : Stage)
    (snapshots disk : Dir) (path : String) (item : StagedItem) : PlanItem :=
  if item.operation = Operation.delete then
    match lookupArticle articles path with
    | some a =>
      if a.postID ≠ "" then
        { type := .delete, path := path, remoteID := a.postID, reason := "marked for deletion" }
      else { type := .skip, path := path, reason := "delete requested but not published" }
    | none => { type := .skip, path := path, reason := "delete requested but not published" }
  else
    match resolveChecksum item snapshots disk path with
    | none => { type := .skip, path := path, reason := "staged file missing" }
    | some currentChecksum =>
      match lookupArticle articles path with
      | none =>
        match lookupChecksum (byChecksumIndex articles) currentChecksum with
        | some oldPath =>
          if (findFile disk oldPath).isNone ||
              (match st.find oldPath with
               | some old => decide (old.operation = Operation.delete)
               | none => false) then
            { type := .update, path := path, oldPath := oldPath,
              remoteID := (match lookupArticle articles oldPath with
                           | some old => old.postID
                           | none => ""),
              reason := "rename detected", checksum := currentChecksum }
          else
            { type := .create, path := path, reason := "new article",
              checksum := currentChecksum }
        | none =>
          { type := .create, path := path, reason := "new article",
            checksum := currentChecksum }
      | some a =>
        if a.postID = "" then
          { type := .create, path := path, reason := "draft promotion",
            checksum := currentChecksum }
        else if currentChecksum ≠ a.checksum then
          { type := .update, path := path, remoteID := a.postID,
            reason := "content changed", checksum := currentChecksum }
        else
          { type := .skip, path := path, remoteID := a.postID,
            reason := "up to date", checksum := currentChecksum }

/-- Modelled from the spec: `diff.GeneratePlan(articles, st)` — one pass
over the stage in stable iteration order, emitting one item per stage
entry. -/
def GeneratePlan (articles : List (String × ArticleSum)) (st : Stage)
    (snapshots disk : Dir) : List PlanItem :=
  st.items.map (fun e => planItemFor articles st snapshots disk e.1 e.2)

/-! ## Staging operations (stage.go, unified schema)

All paths are repository-relative, forward-slash strings.  The source's
`filepath.Abs`/`filepath.Rel` round trip reduces, on such a path, to the
check that the path does not escape the root (`..` prefix). -/

/-- The filesystem state the staging operations touch. -/
structure RepoFS where
  disk : Dir := []
  snapshots : Dir := []
  stage : Stage := {}
deriving DecidableEq, Repr

/-- Model of `state.inRepo`: the relative path must not start with `..`. -/
def inRepo (p : String) : Bool := !(strStartsWith p "..")

/-- Model of `state.saveSnapshot`: write the content under the snapshot name
unless it already exists (content-addressable no-rewrite). -/
def saveSnapshot (dir : Dir) (filename : String) (content : ByteSeq) : Dir :=
  match findFile dir filename with
  | some _ => dir
  | none => dir ++ [(filename, content)]

/-- Model of `state.StageAdd` (stage.go as present in the tree): validate the path
is in the repository, read and hash the content, save a snapshot, then
insert or replace the stage entry.  Note: the function has no
protected-path rejection of the `.hashnode` state directory. -/
def StageAdd (fs : RepoFS) (path : String) : Except String RepoFS :=
  if ¬ inRepo path then .error "path is outside repository"
  else
    match findFile fs.disk path with
    | none => .error "failed to read file"
    | some content =>
      let checksum := ChecksumFromContent content
      let snapshotName := checksum ++ ".md"
      let snapshots := saveSnapshot fs.snapshots snapshotName content
      let item : StagedItem :=
        { type := .article, key := path, operation := .modify,
          checksum := checksum, snapshot := snapshotName }
      .ok { fs with snapshots := snapshots,
                    stage := { fs.stage with items := setAssoc fs.stage.items path item } }

/-- The extension filter of `state.StageDir`: lowercased extension `.md`
or `.markdown`. -/
def hasMarkdownExt (p : String) : Bool :=
  strEndsWith (strToLower p) ".md" || strEndsWith (strToLower p) ".markdown"

/-- Model of `state.StageDir` (stage.go as present in the tree): stage every
walked file with a Markdown extension; a file whose `StageAdd` fails is
skipped.  `walkFiles` is `filepath.WalkDir`'s enumeration of the subtree,
which includes the `.hashnode` state directory — the walk callback never
returns `SkipDir`. -/
def StageDir (fs : RepoFS) (walkFiles : List String) :
    List String × List String × RepoFS :=
  walkFiles.foldl
    (fun acc p =>
      let staged := acc.1
      let skipped := acc.2.1
      let cur := acc.2.2
      if ¬ hasMarkdownExt p then (staged, skipped ++ [p], cur)
      else
        match StageAdd cur p with
        | .ok fs1 => (staged ++ [p], skipped, fs1)
        | .error _ => (staged, skipped ++ [p], cur))
    ([], [], fs)

/-- Model of `state.StageRemove` (stage.go): record a delete intent; the file need
not exist on disk. -/
def StageRemove (fs : RepoFS) (path : String) : RepoFS :=
  let item : StagedItem := { type := .article, key := path, operation := .delete }
  { fs with stage := { fs.stage with items := setAssoc fs.stage.items path item } }

/-- Model of `state.IsStagingItemStale` (stage.go): true when the checksum of the
file now on disk differs from the staged checksum (a missing file is
stale exactly when a checksum was staged). -/
def IsStagingItemStale (disk : Dir) (item : StagedItem) (path : String) : Bool :=
  match findFile disk path with
  | none => decide (item.checksum ≠ "")
  | some data => decide (ChecksumFromContent data ≠ item.checksum)

/-! ## The applier (`applyCmd.RunE`, apply.go)

The embedding mirrors the command's control flow: lock acquisition with a
deferred release on every later exit path, the empty-stage and dry-run
early returns, the title precondition validation, the sequential plan
execution queueing ledger updates, and — only after the whole plan
succeeded — the single ledger write, the stage clear, and snapshot GC.

Leaf collaborators are parameters:
* the remote gateway's per-call results are given by index into the plan
  ("the gateway is arranged to ..."), while the calls actually issued are
  returned as a trace;
* `ExtractFrontmatter` and `ResolveTitleForPath` are oracle functions
  (their YAML parsing is not re-modelled; the applier only branches on
  success/failure and on the title string);
* the plan is the list produced by `diff.GeneratePlan(articles, st)`,
  taken as an argument so that every theorem below holds for every plan
  the engine may produce. -/

/-- A remote mutation as issued by the applier. -/
inductive GwCall
  | removePost (id : String)
  | updatePost (id title : String) (body : ByteSeq)
  | publishPost (pubID title : String) (body : ByteSeq)
deriving DecidableEq, Repr

/-- The arranged behavior of the remote gateway, per plan-item index. -/
structure Gateway where
  removeResult : Nat → Bool
  updateResult : Nat → Bool
  publishResult : Nat → Option (String × String)

/-- The distinguishable error exits of an apply run, each recording the
plan-item index at which the run aborted where one exists. -/
inductive ApplyErr
  | alreadyLocked
  | noConfig
  | invalidTitles (paths : List String)
  | confirmationRequired (k : Nat) (path : String)
  | staleStaging (k : Nat) (path : String)
  | readContent (k : Nat) (path : String)
  | badFrontmatter (k : Nat) (path : String)
  | noTitle (k : Nat) (path : String)
  | missingPubID (k : Nat) (path : String)
  | remoteDelete (k : Nat) (path : String)
  | remoteUpdate (k : Nat) (path : String)
  | remotePublish (k : Nat) (path : String)
  | publishNoID (k : Nat) (path : String)
deriving DecidableEq, Repr

/-- The plan index at which the remote gateway failed, when the error is
a failed remote mutation. -/
def ApplyErr.remoteAt : ApplyErr → Option Nat
  | .remoteDelete k _ => some k
  | .remoteUpdate k _ => some k
  | .remotePublish k _ => some k
  | _ => none

/-- The plan index of a precondition rejection (stale staging on update,
missing confirmation on delete), when the error is one. -/
def ApplyErr.precondAt : ApplyErr → Option Nat
  | .confirmationRequired k _ => some k
  | .staleStaging k _ => some k
  | _ => none

/-- The plan index at which the run aborted, for every per-item error. -/
def ApplyErr.itemAt : ApplyErr → Option Nat
  | .confirmationRequired k _ => some k
  | .staleStaging k _ => some k
  | .readContent k _ => some k
  | .badFrontmatter k _ => some k
  | .noTitle k _ => some k
  | .missingPubID k _ => some k
  | .remoteDelete k _ => some k
  | .remoteUpdate k _ => some k
  | .remotePublish k _ => some k
  | .publishNoID k _ => some k
  | _ => none

/-- The successful outcomes of an apply run. -/
inductive ApplyOk
  | nothingToApply
  | dryRunPreview
  | applied
deriving DecidableEq, Repr

/-- A queued ledger operation (the `LedgerUpdate` struct of apply.go). -/
structure LedgerUpdate where
  path : String
  postID : String := ""
  checksum : String := ""
  slug : String := ""
  title : String := ""
  isDelete : Bool := false
deriving DecidableEq, Repr

/-- The project state an apply run reads and writes. -/
structure ProjectFS where
  lock : Bool := false
  sumFile : Sum := {}
  stageFile : Stage := {}
  snapshots : Dir := []
  disk : Dir := []

/-- The run parameters: flags, gateway arrangement, generated plan, and
the parsing oracles. -/
structure ApplyEnv where
  applyYes : Bool := false
  applyDryRun : Bool := false
  tokenPresent : Bool := true
  gw : Gateway
  plan : List PlanItem
  extractBody : ByteSeq → Option ByteSeq
  resolveTitle : String → String

/-- The content the applier loads for a path: the staged snapshot when
one is named, the working-tree file otherwise. -/
def loadContentFor (st : Stage) (snapshots disk : Dir) (path : String) :
    Option ByteSeq :=
  match st.find path with
  | some si =>
    if si.snapshot ≠ "" then
      match SnapshotStore.Get snapshots si.snapshot with
      | .ok c => some c
      | .error _ => none
    else findFile disk path
  | none => findFile disk path

/-- The checksum the applier queues for a path: the staged checksum when
one is recorded, the hash of the loaded content otherwise. -/
def checksumToStore (st : Stage) (path : String) (content : ByteSeq) : String :=
  match st.find path with
  | some stored => if stored.checksum ≠ "" then stored.checksum else ChecksumFromContent content
  | none => ChecksumFromContent content

/-- The plan-execution loop of apply.go: process the items in order,
issuing remote mutations and queueing ledger updates; any per-item error
aborts the loop, discarding the queue but keeping the trace of calls
already issued. -/
def execPlan (env : ApplyEnv) (s : Sum) (st : Stage) (snapshots disk : Dir) :
    List PlanItem → Nat → List LedgerUpdate → List (Nat × GwCall) →
    Except ApplyErr (List LedgerUpdate) × List (Nat × GwCall)
  | [], _, updates, trace => (.ok updates, trace)
  | it :: rest, i, updates, trace =>
    match it.type with
    | .skip => execPlan env s st snapshots disk rest (i + 1) updates trace
    | .delete =>
      let np := it.path
      let remoteID :=
        if it.remoteID ≠ "" then it.remoteID
        else
          match lookupArticle s.articles np with
          | some a => a.postID
          | none => ""
      if remoteID = "" then execPlan env s st snapshots disk rest (i + 1) updates trace
      else if ¬ env.applyYes then (.error (.confirmationRequired i it.path), trace)
      else
        let trace1 := trace ++ [(i, GwCall.removePost remoteID)]
        if env.gw.removeResult i then
          execPlan env s st snapshots disk rest (i + 1)
            (updates ++ [{ path := np, isDelete := true }]) trace1
        else (.error (.remoteDelete i it.path), trace1)
    | .update =>
      let np := it.path
      let entryOpt :=
        match lookupArticle s.articles np with
        | some a => some a
        | none => if it.oldPath ≠ "" then lookupArticle s.articles it.oldPath else none
      match entryOpt with
      | none => execPlan env s st snapshots disk rest (i + 1) updates trace
      | some entry =>
        let stale :=
          match st.find np with
          | some si => IsStagingItemStale disk si it.path
          | none => false
        if stale && !env.applyYes then (.error (.staleStaging i it.path), trace)
        else
          match loadContentFor st snapshots disk np with
          | none => (.error (.readContent i it.path), trace)
          | some contentBytes =>
            match env.extractBody contentBytes with
            | none => (.error (.badFrontmatter i it.path), trace)
            | some body =>
              let title := env.resolveTitle it.path
              if title = "" then (.error (.noTitle i it.path), trace)
              else if s.blog.publicationID = "" then (.error (.missingPubID i it.path), trace)
              else
                let trace1 := trace ++ [(i, GwCall.updatePost entry.postID title body)]
                if env.gw.updateResult i then
                  let checksum := checksumToStore st np contentBytes
                  let slug :=
                    match lookupArticle s.articles np with
                    | some le => le.slug
                    | none => ""
                  execPlan env s st snapshots disk rest (i + 1)
                    (updates ++ [{ path := np, postID := entry.postID,
                                   checksum := checksum, slug := slug, title := title }]) trace1
                else (.error (.remoteUpdate i it.path), trace1)
    | .create =>
      let np := it.path
      match loadContentFor st snapshots disk np with
      | none => (.error (.readContent i it.path), trace)
      | some contentBytes =>
        match env.extractBody contentBytes with
        | none => (.error (.badFrontmatter i it.path), trace)
        | some body =>
          let title := env.resolveTitle it.path
          if title = "" then (.error (.noTitle i it.path), trace)
          else
            let trace1 := trace ++ [(i, GwCall.publishPost s.blog.publicationID title body)]
            match env.gw.publishResult i with
            | none => (.error (.remotePublish i it.path), trace1)
            | some (newID, pubSlug) =>
              if newID = "" then (.error (.publishNoID i it.path), trace1)
              else
                let checksum := checksumToStore st np contentBytes
                execPlan env s st snapshots disk rest (i + 1)
                  (updates ++ [{ path := np, postID := newID, checksum := checksum,
                                 slug := pubSlug, title := title }]) trace1

/-- Replay the queued ledger operations on the in-memory ledger. -/
def applyLedgerUpdates (s : Sum) (ups : List LedgerUpdate) : Sum :=
  ups.foldl
    (fun acc u =>
      if u.isDelete then acc.removeArticle u.path
      else acc.setArticleWithTitle u.path u.postID u.checksum u.slug u.title)
    s

/-- The full outcome of an apply run: the command result, the project
state on disk afterwards, and the remote calls issued. -/
structure ApplyOutcome where
  result : Except ApplyErr ApplyOk
  fs : ProjectFS
  trace : List (Nat × GwCall)

/-- The paths of planned creates whose resolved title is missing or
shorter than the 6-character minimum (the `bad` list of apply.go). -/
def badTitles (env : ApplyEnv) : List String :=
  (env.plan.filter
    (fun it => it.type = ActionType.create ∧ (env.resolveTitle it.path).length < 6)).map
      (fun it => it.path)

/-- Model of `applyCmd.RunE` (apply.go): acquire the lock (released on every exit
path after this point), require a token, return early on an empty stage,
return after printing in dry-run mode, validate create titles, execute
the plan, and on full success write the ledger once, clear the stage, and
garbage-collect snapshots.  During apply the lock file holds a plain
`pid=`/`created=` text that the GC's YAML lock probe fails to parse, so
GC sees no lock references. -/
def applyRun (env : ApplyEnv) (fs : ProjectFS) : ApplyOutcome :=
  if fs.lock then { result := .error .alreadyLocked, fs := fs, trace := [] }
  else if ¬ env.tokenPresent then
    { result := .error .noConfig, fs := { fs with lock := false }, trace := [] }
  else if fs.stageFile.items.isEmpty then
    { result := .ok .nothingToApply, fs := { fs with lock := false }, trace := [] }
  else if env.applyDryRun then
    { result := .ok .dryRunPreview, fs := { fs with lock := false }, trace := [] }
  else if badTitles env ≠ [] then
    { result := .error (.invalidTitles (badTitles env)), fs := { fs with lock := false },
      trace := [] }
  else
    match execPlan env fs.sumFile fs.stageFile fs.snapshots fs.disk env.plan 0 [] [] with
    | (.error e, trace) =>
      { result := .error e, fs := { fs with lock := false }, trace := trace }
    | (.ok updates, trace) =>
      { result := .ok .applied,
        fs := { lock := false,
                sumFile := applyLedgerUpdates fs.sumFile updates,
                stageFile := { fs.stageFile with items := [] },
                snapshots := (SnapshotStore.GC fs.snapshots
                  { fs.stageFile with items := [] } {} false).2,
                disk := fs.disk },
        trace := trace }

/-! ## Order instances for key-sorted serialization -/

instance keyLeTotal {α : Type} : IsTotal (String × α) (fun a b => a.1 ≤ b.1) :=
  ⟨fun a b => le_total a.1 b.1⟩

instance keyLeTrans {α : Type} : IsTrans (String × α) (fun a b => a.1 ≤ b.1) :=
  ⟨fun _ _ _ h1 h2 => le_trans h1 h2⟩

instance keyLtAntisymm {α : Type} : IsAntisymm (String × α) (fun a b => a.1 < b.1) :=
  ⟨fun _ _ h1 h2 => absurd h1 (lt_asymm h2)⟩

/-! ## Concrete instances for witnesses and counterexamples -/

/-- A 64-hex-character snapshot name present on disk but referenced by
nothing. -/
def nameU : String :=
  "aaaaaaaaaaaaaaaaaaaaaaaaaaaaaaaaaaaaaaaaaaaaaaaaaaaaaaaaaaaaaaaa.md"

/-- A 64-hex-character snapshot name referenced by a stage item. -/
def nameR : String :=
  "bbbbbbbbbbbbbbbbbbbbbbbbbbbbbbbbbbbbbbbbbbbbbbbbbbbbbbbbbbbbbbbb.md"

/-- A stage whose single item references `nameR`, which is not on disk. -/
def stGC : Stage :=
  { items := [("a.md",
      { type := .article, key := "a.md", checksum := "c1",
        snapshot := nameR, operation := .modify })] }

/-- A snapshot directory holding only the unreferenced `nameU`. -/
def dirGC : Dir := [(nameU, [1])]

/-- A stage referencing `nameR` for the amended-GC witness. -/
def stGCW : Stage :=
  { items := [("a.md",
      { type := .article, key := "a.md", checksum := "c1",
        snapshot := nameR, operation := .modify })] }

/-- A snapshot directory holding the referenced `nameR` and the
unreferenced `nameU`. -/
def dirGCW : Dir := [(nameR, [1]), (nameU, [2])]

/-- The state-directory path staged by the C3 failing input. -/
def stateDirPath : String :=
  ".hashnode/snapshots/" ++ nameU

/-- A repository whose working tree contains a snapshot file inside the
state directory. -/
def fsC3 : RepoFS :=
  { disk := [(stateDirPath, [104, 105])] }

/-- Whether a staging call succeeded. -/
def exceptOk {ε α : Type} : Except ε α → Bool
  | .ok _ => true
  | .error _ => false

/-- Whether a staging call succeeded and left a stage item under the
given key. -/
def stagedKeyPresent (r : Except String RepoFS) (key : String) : Bool :=
  match r with
  | .ok fs1 => (fs1.stage.find key).isSome
  | .error _ => false

/-- The gateway arrangement for the C1 witness: the first remote call
succeeds and the second fails. -/
def gwC1 : Gateway :=
  { removeResult := fun i => decide (i = 0),
    updateResult := fun _ => false,
    publishResult := fun _ => none }

/-- The C1 witness environment: two confirmed deletes, the gateway
failing at the second. -/
def envC1 : ApplyEnv :=
  { applyYes := true,
    gw := gwC1,
    plan := [{ type := .delete, path := "a.md" }, { type := .delete, path := "b.md" }],
    extractBody := fun b => some b,
    resolveTitle := fun _ => "Valid Title" }

/-- The C1 witness project state. -/
def fsC1 : ProjectFS :=
  { sumFile :=
      { version := 1, blog := { publicationID := "pub" },
        articles := [("a.md", { postID := "pa", checksum := "ca" }),
                     ("b.md", { postID := "pb", checksum := "cb" })] },
    stageFile := { items := [("a.md",
      { type := .article, key := "a.md", operation := .delete })] } }

/-- A gateway on which every call succeeds. -/
def gwOK : Gateway :=
  { removeResult := fun _ => true,
    updateResult := fun _ => true,
    publishResult := fun _ => some ("newid", "newslug") }

/-- The C2 counterexample environment: an update that succeeds followed
by an unconfirmed delete. -/
def envC2 : ApplyEnv :=
  { applyYes := false,
    gw := gwOK,
    plan := [{ type := .update, path := "x.md" }, { type := .delete, path := "y.md" }],
    extractBody := fun b => some b,
    resolveTitle := fun _ => "Valid Title" }

/-- The C2 counterexample project state: `x.md` staged from a snapshot
(no recorded checksum, file absent on disk, hence not stale), `y.md`
published remotely. -/
def fsC2 : ProjectFS :=
  { sumFile :=
      { version := 1, blog := { publicationID := "pub" },
        articles := [("x.md", { postID := "p1", checksum := "c1" }),
                     ("y.md", { postID := "p2", checksum := "c2" })] },
    stageFile := { items := [("x.md",
      { type := .article, key := "x.md", checksum := "",
        snapshot := nameR, operation := .modify })] },
    snapshots := [(nameR, [])] }

/-- The C2 witness environment: a single unconfirmed delete. -/
def envC2W : ApplyEnv :=
  { applyYes := false,
    gw := gwOK,
    plan := [{ type := .delete, path := "y.md" }],
    extractBody := fun b => some b,
    resolveTitle := fun _ => "Valid Title" }

/-- The C2 witness project state. -/
def fsC2W : ProjectFS :=
  { sumFile :=
      { version := 1, blog := { publicationID := "pub" },
        articles := [("y.md", { postID := "p2", checksum := "c2" })] },
    stageFile := { items := [("y.md",
      { type := .article, key := "y.md", operation := .delete })] } }

/-- The C6 counterexample environment: dry-run with a planned create
whose resolved title is missing. -/
def envC6 : ApplyEnv :=
  { applyDryRun := true,
    gw := gwOK,
    plan := [{ type := .create, path := "n.md" }],
    extractBody := fun b => some b,
    resolveTitle := fun _ => "" }

/-- The C6 counterexample project state. -/
def fsC6 : ProjectFS :=
  { stageFile := { items := [("n.md",
      { type := .article, key := "n.md", checksum := "c", operation := .modify })] } }

/-- Ledger articles for the C7 witness. -/
def artsC7 : List (String × ArticleSum) :=
  [("p.md", { postID := "", checksum := "c0" })]

/-- Stage for the C7 witness: one modify item at a ledger path. -/
def stC7 : Stage :=
  { items := [("p.md",
      { type := .article, key := "p.md", checksum := "c1", operation := .modify })] }

/-- Ledger articles for the C5 witness: the old path, published, with the
staged item's checksum. -/
def artsC5 : List (String × ArticleSum) :=
  [("old.md", { postID := "pid", checksum := "c1" })]

/-- Stage for the C5 witness: the same content staged at a new path, the
old path no longer on disk. -/
def stC5 : Stage :=
  { items := [("new.md",
      { type := .article, key := "new.md", checksum := "c1", operation := .modify })] }

/-- First ledger for the C9 witness. -/
def sumC9a : Sum :=
  { version := 1, blog := { publicationID := "pub" },
    series := [("s1", { seriesID := "i1" }), ("s2", { seriesID := "i2" })],
    articles := [("a.md", { postID := "p1", checksum := "c1" }),
                 ("b.md", { postID := "p2", checksum := "c2" })] }

/-- Second ledger for the C9 witness: the same contents inserted in the
opposite order. -/
def sumC9b : Sum :=
  { version := 1, blog := { publicationID := "pub" },
    series := [("s2", { seriesID := "i2" }), ("s1", { seriesID := "i1" })],
    articles := [("b.md", { postID := "p2", checksum := "c2" }),
                 ("a.md", { postID := "p1", checksum := "c1" })] }

/-! ## Helper lemmas -/

theorem string_data_append (s t : String) : (s ++ t).data = s.data ++ t.data := rfl

theorem string_mk_data (s : String) : String.mk s.data = s := rfl

theorem append_md_ne_empty (x : String) : x ++ ".md" ≠ "" := by
  intro h
  have hd : (x ++ ".md").data = ("" : String).data := by rw [h]
  rw [string_data_append] at hd
  simp at hd

theorem trimSuffix_append_md (x : String) : trimSuffix (x ++ ".md") ".md" = x := by
  unfold trimSuffix
  rw [if_pos]
  · rw [string_data_append]
    have hl : (x.data ++ (".md").data).length - (".md").data.length = x.data.length := by
      simp
    rw [hl]
    rw [List.take_left]
  · rw [string_data_append]
    exact List.suffix_append _ _

theorem findFile_append_self (dir : Dir) (f : String) (c : ByteSeq)
    (h : findFile dir f = none) : findFile (dir ++ [(f, c)]) f = some c := by
  induction dir with
  | nil => simp [findFile]
  | cons e t ih =>
    obtain ⟨n, v⟩ := e
    simp only [findFile] at h
    by_cases hn : n = f
    · rw [if_pos hn] at h
      exact absurd h (by simp)
    · rw [if_neg hn] at h
      simpa only [List.cons_append, findFile, if_neg hn] using ih h

/-! ## C8 and C10: the content-addressable snapshot store -/

/-- C8: for every byte sequence `b`, `Create b` twice yields the same
filename — the lowercase hex SHA-256 digest of `b` followed by `.md` —
and the second call performs no write: the store after the second call is
the store after the first. -/
theorem snapshot_create_idempotent (dir : Dir) (b : ByteSeq) :
    (SnapshotStore.Create dir b).1.filename = sha256hex b ++ ".md" ∧
    (SnapshotStore.Create (SnapshotStore.Create dir b).2 b).1.filename
        = (SnapshotStore.Create dir b).1.filename ∧
    (SnapshotStore.Create (SnapshotStore.Create dir b).2 b).2
        = (SnapshotStore.Create dir b).2 := by
  unfold SnapshotStore.Create
  cases h : findFile dir (sha256hex b ++ ".md") with
  | some existing => simp [h]
  | none => simp [h, findFile_append_self dir _ b h]

/-- C10: when a file named `hex(SHA-256(b)) ++ ".md"` already exists with
contents `c`, `Create b` performs no write, leaves the stored bytes
unchanged, and returns a record describing the existing file without
hashing its contents; only `Validate` reports the mismatch, succeeding
exactly when the stored contents hash like `b`. -/
theorem snapshot_create_existing_no_verify (dir : Dir) (b c : ByteSeq)
    (h : findFile dir (sha256hex b ++ ".md") = some c) :
    SnapshotStore.Create dir b =
      ({ checksum := sha256hex b, filename := sha256hex b ++ ".md", size := c.length }, dir) ∧
    findFile (SnapshotStore.Create dir b).2 (sha256hex b ++ ".md") = some c ∧
    (SnapshotStore.Validate dir (sha256hex b ++ ".md") = .ok () ↔ sha256hex c = sha256hex b) := by
  refine ⟨?_, ?_, ?_⟩
  · simp [SnapshotStore.Create, h]
  · simp [SnapshotStore.Create, h]
  · unfold SnapshotStore.Validate SnapshotStore.Get
    rw [if_neg (append_md_ne_empty (sha256hex b))]
    rw [h]
    simp only [trimSuffix_append_md]
    by_cases he : sha256hex c = sha256hex b
    · simp [he]
    · simp [he]

/-- Witness for C8 at the empty store and a one-byte content. -/
theorem snapshot_create_idempotent_witness :
    (SnapshotStore.Create [] [42]).1.filename = sha256hex [42] ++ ".md" ∧
    (SnapshotStore.Create (SnapshotStore.Create [] [42]).2 [42]).1.filename
        = (SnapshotStore.Create [] [42]).1.filename ∧
    (SnapshotStore.Create (SnapshotStore.Create [] [42]).2 [42]).2
        = (SnapshotStore.Create [] [42]).2 :=
  snapshot_create_idempotent [] [42]

/-- Witness for C10 at the concrete store holding one byte `42` under the
digest name of the empty content. -/
theorem snapshot_create_existing_witness :
    SnapshotStore.Create [(sha256hex [] ++ ".md", [42])] [] =
      ({ checksum := sha256hex [], filename := sha256hex [] ++ ".md",
         size := List.length [42] },
        [(sha256hex [] ++ ".md", [42])]) ∧
    findFile (SnapshotStore.Create [(sha256hex [] ++ ".md", [42])] []).2
        (sha256hex [] ++ ".md") = some [42] ∧
    (SnapshotStore.Validate [(sha256hex [] ++ ".md", [42])] (sha256hex [] ++ ".md")
        = .ok () ↔ sha256hex [42] = sha256hex []) :=
  snapshot_create_existing_no_verify [(sha256hex [] ++ ".md", [42])] [] [42]
    (by simp [findFile])

/-! ## C9: deterministic ledger serialization -/

theorem sortByKey_perm {α : Type} (l : List (String × α)) : (sortByKey l).Perm l :=
  List.perm_insertionSort _ l

theorem sortByKey_sorted {α : Type} (l : List (String × α)) :
    List.Sorted (fun a b : String × α => a.1 ≤ b.1) (sortByKey l) :=
  List.sorted_insertionSort _ l

theorem pairwise_keyLt_of_sorted {α : Type} (l : List (String × α))
    (hs : List.Sorted (fun a b : String × α => a.1 ≤ b.1) l)
    (hn : (l.map Prod.fst).Nodup) :
    List.Pairwise (fun a b : String × α => a.1 < b.1) l := by
  have hne : List.Pairwise (fun a b : String × α => a.1 ≠ b.1) l :=
    List.pairwise_map.mp hn
  exact (hs.and hne).imp (fun hab => lt_of_le_of_ne hab.1 hab.2)

theorem sortByKey_eq_of_perm {α : Type} (l1 l2 : List (String × α))
    (hp : l1.Perm l2) (hn : (l1.map Prod.fst).Nodup) :
    sortByKey l1 = sortByKey l2 := by
  have hp12 : (sortByKey l1).Perm (sortByKey l2) :=
    ((sortByKey_perm l1).trans hp).trans (sortByKey_perm l2).symm
  have hn2 : (l2.map Prod.fst).Nodup := ((hp.map Prod.fst).nodup_iff).mp hn
  have hn1s : ((sortByKey l1).map Prod.fst).Nodup :=
    (((sortByKey_perm l1).map Prod.fst).nodup_iff).mpr hn
  have hn2s : ((sortByKey l2).map Prod.fst).Nodup :=
    (((sortByKey_perm l2).map Prod.fst).nodup_iff).mpr hn2
  exact List.eq_of_perm_of_sorted hp12
    (pairwise_keyLt_of_sorted _ (sortByKey_sorted l1) hn1s)
    (pairwise_keyLt_of_sorted _ (sortByKey_sorted l2) hn2s)

/-- C9: ledger serialization is deterministic — two ledgers with the same
version, publication identity, and map contents (the series and article
tables equal as sets of rows, whatever their insertion order) serialize
to byte-equal output. -/
theorem ledger_serialization_deterministic (s1 s2 : Sum)
    (hv : s1.version = s2.version) (hb : s1.blog = s2.blog)
    (hs : s1.series.Perm s2.series) (ha : s1.articles.Perm s2.articles)
    (hsn : (s1.series.map Prod.fst).Nodup) (han : (s1.articles.map Prod.fst).Nodup) :
    serializeSum s1 = serializeSum s2 := by
  have hs1 : sortByKey s1.series = sortByKey s2.series := sortByKey_eq_of_perm _ _ hs hsn
  have ha1 : sortByKey s1.articles = sortByKey s2.articles := sortByKey_eq_of_perm _ _ ha han
  simp [serializeSum, hv, hb, hs1, ha1]

/-- Witness for C9 on two concrete ledgers whose series and article rows
were inserted in opposite orders. -/
theorem ledger_serialization_witness : serializeSum sumC9a = serializeSum sumC9b :=
  ledger_serialization_deterministic sumC9a sumC9b rfl rfl
    (by decide) (by decide) (by decide) (by decide)

/-! ## C4: snapshot garbage collection -/

theorem mem_removeFile (e : String × ByteSeq) (dir : Dir) (f : String) :
    e ∈ removeFile dir f ↔ e ∈ dir ∧ e.1 ≠ f := by
  induction dir with
  | nil => simp [removeFile]
  | cons hd t ih =>
    obtain ⟨n, v⟩ := hd
    simp only [removeFile]
    split
    · rename_i hn
      subst hn
      rw [ih]
      simp only [List.mem_cons]
      constructor
      · rintro ⟨hm, hne⟩
        exact ⟨Or.inr hm, hne⟩
      · rintro ⟨hm | hm, hne⟩
        · exact absurd (congrArg Prod.fst hm) hne
        · exact ⟨hm, hne⟩
    · rename_i hn
      simp only [List.mem_cons, ih]
      constructor
      · rintro (hm | ⟨hm, hne⟩)
        · refine ⟨Or.inl hm, ?_⟩
          rw [hm]
          exact hn
        · exact ⟨Or.inr hm, hne⟩
      · rintro ⟨hm | hm, hne⟩
        · exact Or.inl hm
        · exact Or.inr ⟨hm, hne⟩

theorem mem_delete (e : String × ByteSeq) (dir : Dir) (f : String) (hf : f ≠ "") :
    e ∈ SnapshotStore.Delete dir f ↔ e ∈ dir ∧ e.1 ≠ f := by
  unfold SnapshotStore.Delete
  rw [if_neg hf]
  exact mem_removeFile e dir f

theorem mem_delete_of_mem (e : String × ByteSeq) (dir : Dir) (f : String)
    (h : e ∈ SnapshotStore.Delete dir f) : e ∈ dir := by
  unfold SnapshotStore.Delete at h
  split at h
  · exact h
  · exact ((mem_removeFile e dir f).mp h).1

theorem gcLoop_subset (r : List String) (dr : Bool) (names : List String) :
    ∀ (stats : SnapshotStore.GCStats) (dir : Dir) (e : String × ByteSeq),
      e ∈ (SnapshotStore.gcLoop r dr names stats dir).2 → e ∈ dir := by
  induction names with
  | nil =>
    intro stats dir e h
    simpa [SnapshotStore.gcLoop] using h
  | cons f rest ih =>
    intro stats dir e h
    simp only [SnapshotStore.gcLoop] at h
    split at h
    · exact ih _ _ _ h
    · split at h
      · exact ih _ _ _ h
      · exact mem_delete_of_mem e dir f (ih _ _ _ h)

theorem gcLoop_keeps_referenced (r : List String) (dr : Bool) (names : List String) :
    ∀ (stats : SnapshotStore.GCStats) (dir : Dir) (e : String × ByteSeq),
      e ∈ dir → strToLower e.1 ∈ r →
      e ∈ (SnapshotStore.gcLoop r dr names stats dir).2 := by
  induction names with
  | nil =>
    intro stats dir e he _
    simpa [SnapshotStore.gcLoop] using he
  | cons f rest ih =>
    intro stats dir e he hr
    simp only [SnapshotStore.gcLoop]
    split
    · exact ih _ _ _ he hr
    · split
      · exact ih _ _ _ he hr
      · rename_i hcond _
        refine ih _ _ _ ?_ hr
        unfold SnapshotStore.Delete
        split
        · exact he
        · refine (mem_removeFile e dir f).mpr ⟨he, ?_⟩
          intro hef
          exact hcond (hef ▸ hr)

theorem gcLoop_keeps_unlisted (r : List String) (dr : Bool) (names : List String) :
    ∀ (stats : SnapshotStore.GCStats) (dir : Dir) (e : String × ByteSeq),
      e ∈ dir → e.1 ∉ names →
      e ∈ (SnapshotStore.gcLoop r dr names stats dir).2 := by
  induction names with
  | nil =>
    intro stats dir e he _
    simpa [SnapshotStore.gcLoop] using he
  | cons f rest ih =>
    intro stats dir e he hn
    have hef : e.1 ≠ f := fun h => hn (h ▸ List.mem_cons_self f rest)
    have hrest : e.1 ∉ rest := fun h => hn (List.mem_cons_of_mem f h)
    simp only [SnapshotStore.gcLoop]
    split
    · exact ih _ _ _ he hrest
    · split
      · exact ih _ _ _ he hrest
      · refine ih _ _ _ ?_ hrest
        unfold SnapshotStore.Delete
        split
        · exact he
        · exact (mem_removeFile e dir f).mpr ⟨he, hef⟩

theorem gcLoop_removes_unreferenced (r : List String) (names : List String) :
    ∀ (stats : SnapshotStore.GCStats) (dir : Dir) (n : String),
      n ∈ names → strToLower n ∉ r → n ≠ "" →
      ∀ e ∈ (SnapshotStore.gcLoop r false names stats dir).2, e.1 ≠ n := by
  induction names with
  | nil =>
    intro stats dir n hn
    exact absurd hn (List.not_mem_nil n)
  | cons f rest ih =>
    intro stats dir n hn hr hne e he
    simp only [SnapshotStore.gcLoop] at he
    by_cases hfn : f = n
    · subst hfn
      rw [if_neg hr] at he
      have hmem : e ∈ SnapshotStore.Delete dir f := gcLoop_subset r false rest _ _ e he
      exact ((mem_delete e dir f hne).mp hmem).2
    · have hnrest : n ∈ rest := by
        rcases List.mem_cons.mp hn with h | h
        · exact absurd h.symm hfn
        · exact h
      split at he
      · exact ih _ _ n hnrest hr hne e he
      · exact ih _ _ n hnrest hr hne e he

theorem mem_listFiles (dir : Dir) (f : String) :
    f ∈ SnapshotStore.ListFiles dir ↔
      (∃ e ∈ dir, e.1 = f) ∧ SnapshotStore.isSnapshotName f = true := by
  simp only [SnapshotStore.ListFiles, List.mem_map, List.mem_filter]
  constructor
  · rintro ⟨e, ⟨hmem, hsn⟩, hef⟩
    exact ⟨⟨e, hmem, hef⟩, hef ▸ hsn⟩
  · rintro ⟨⟨e, hmem, hef⟩, hsn⟩
    exact ⟨e, ⟨hmem, hef ▸ hsn⟩, hef⟩

theorem isSnapshotName_ne_empty (f : String) (h : SnapshotStore.isSnapshotName f = true) :
    f ≠ "" := by
  intro hf
  subst hf
  simp [SnapshotStore.isSnapshotName] at h

theorem mem_insertRef (acc : List String) (s x : String) :
    x ∈ SnapshotStore.insertRef acc s ↔ x ∈ acc ∨ x = s := by
  unfold SnapshotStore.insertRef
  split
  · rename_i hmem
    constructor
    · exact Or.inl
    · rintro (h | h)
      · exact h
      · exact h ▸ hmem
  · simp [List.mem_append]

theorem mem_refFold {γ : Type} (g : γ → String) (l : List γ) (init : List String)
    (x : String) :
    x ∈ SnapshotStore.refFold g l init ↔
      x ∈ init ∨ ∃ e ∈ l, g e ≠ "" ∧ strToLower (g e) = x := by
  induction l generalizing init with
  | nil => simp [SnapshotStore.refFold]
  | cons hd t ih =>
    simp only [SnapshotStore.refFold, List.foldl_cons] at ih ⊢
    rw [ih]
    simp only [List.exists_mem_cons_iff]
    by_cases hg : g hd = ""
    · rw [if_neg (by simp [hg])]
      constructor
      · rintro (h | h)
        · exact Or.inl h
        · exact Or.inr (Or.inr h)
      · rintro (h | ⟨hne, _⟩ | h)
        · exact Or.inl h
        · exact absurd hg hne
        · exact Or.inr h
    · rw [if_pos (by simp [hg])]
      rw [mem_insertRef]
      constructor
      · rintro ((h | h) | h)
        · exact Or.inl h
        · exact Or.inr (Or.inl ⟨hg, h.symm⟩)
        · exact Or.inr (Or.inr h)
      · rintro (h | ⟨_, hlow⟩ | h)
        · exact Or.inl (Or.inl h)
        · exact Or.inl (Or.inr hlow.symm)
        · exact Or.inr h

theorem mem_buildReferenceSet (st : Stage) (lock : LockData) (x : String) :
    x ∈ SnapshotStore.buildReferenceSet st lock ↔
      (∃ e ∈ st.items, e.2.snapshot ≠ "" ∧ strToLower e.2.snapshot = x) ∨
      (∃ e ∈ lock.staged, e.2.snapshot ≠ "" ∧ strToLower e.2.snapshot = x) := by
  unfold SnapshotStore.buildReferenceSet
  rw [mem_refFold, mem_refFold]
  simp only [List.not_mem_nil, false_or]

/-- C4, counterexample: with a stage item referencing a snapshot that is
not on disk, GC's early return (reference count ≥ listed count) leaves an
unreferenced snapshot on disk, so after `gc(false)` not every remaining
snapshot is referenced by a stage item. -/
theorem gc_reachability_counterexample :
    (SnapshotStore.GC dirGC stGC {} false).2 = dirGC ∧
    SnapshotStore.ListFiles dirGC = [nameU] ∧
    (∀ e ∈ stGC.items, ¬ e.2.snapshot = nameU) := by
  decide

/-- C4, amended: no snapshot referenced by a stage item is ever deleted
by `gc(false)`; and whenever the reference count is below the listed
snapshot count (so the early return is not taken), every snapshot
remaining on disk is referenced — case-insensitively — by some stage item
or lock record. -/
theorem gc_reachability_amended (st : Stage) (lock : LockData) (dir : Dir) :
    (∀ e ∈ dir, (∃ it ∈ st.items, it.2.snapshot = e.1) →
        e ∈ (SnapshotStore.GC dir st lock false).2) ∧
    ((SnapshotStore.buildReferenceSet st lock).length < (SnapshotStore.ListFiles dir).length →
      ∀ f ∈ SnapshotStore.ListFiles (SnapshotStore.GC dir st lock false).2,
        (∃ it ∈ st.items, it.2.snapshot ≠ "" ∧ strToLower it.2.snapshot = strToLower f) ∨
        (∃ la ∈ lock.staged, la.2.snapshot ≠ "" ∧ strToLower la.2.snapshot = strToLower f)) := by
  constructor
  · rintro e he ⟨it, hit, hsnap⟩
    unfold SnapshotStore.GC
    split
    · exact he
    · split
      · exact he
      · by_cases hempty : e.1 = ""
        · refine gcLoop_keeps_unlisted _ _ _ _ _ _ he ?_
          intro hmem
          have hsn := ((mem_listFiles dir e.1).mp hmem).2
          exact isSnapshotName_ne_empty _ hsn hempty
        · refine gcLoop_keeps_referenced _ _ _ _ _ _ he ?_
          refine (mem_buildReferenceSet st lock _).mpr (Or.inl ⟨it, hit, ?_, ?_⟩)
          · rw [hsnap]
            exact hempty
          · rw [hsnap]

  · intro hlt f hf
    unfold SnapshotStore.GC at hf
    split at hf
    · rename_i hzero
      rw [hzero] at hlt
      exact absurd hlt (Nat.not_lt_zero _)
    · split at hf
      · rename_i hge
        omega
      · obtain ⟨⟨e, hmem, hef⟩, hsn⟩ := (mem_listFiles _ f).mp hf
        have hedir : e ∈ dir := gcLoop_subset _ _ _ _ _ e hmem
        have hfl : f ∈ SnapshotStore.ListFiles dir :=
          (mem_listFiles dir f).mpr ⟨⟨e, hedir, hef⟩, hsn⟩
        have href : strToLower f ∈ SnapshotStore.buildReferenceSet st lock := by
          by_contra hnr
          exact gcLoop_removes_unreferenced _ _ _ _ f hfl hnr
            (isSnapshotName_ne_empty f hsn) e hmem hef
        exact (mem_buildReferenceSet st lock _).mp href

/-- Witness for the amended C4 on a store holding one referenced and one
unreferenced snapshot. -/
theorem gc_reachability_amended_witness :
    (nameR, [1]) ∈ (SnapshotStore.GC dirGCW stGCW {} false).2 ∧
    ((∃ it ∈ stGCW.items, it.2.snapshot ≠ "" ∧ strToLower it.2.snapshot = strToLower nameR) ∨
     (∃ la ∈ ({} : LockData).staged, la.2.snapshot ≠ "" ∧ strToLower la.2.snapshot = strToLower nameR)) := by
  constructor
  · exact (gc_reachability_amended stGCW {} dirGCW).1 (nameR, [1]) (by decide) (by decide)
  · exact (gc_reachability_amended stGCW {} dirGCW).2 (by decide) nameR (by decide)

/-! ## C5 and C7: the diff engine -/

theorem planItemFor_path (articles : List (String × ArticleSum)) (st : Stage)
    (snapshots disk : Dir) (path : String) (item : StagedItem) :
    (planItemFor articles st snapshots disk path item).path = path := by
  unfold planItemFor
  repeat' split
  all_goals rfl

theorem filter_map_plan_nil (f : String → StagedItem → PlanItem)
    (hf : ∀ k it, (f k it).path = k) (l : List (String × StagedItem)) (path : String)
    (hnm : path ∉ l.map Prod.fst) :
    (l.map (fun e => f e.1 e.2)).filter (fun it => it.path = path) = [] := by
  induction l with
  | nil => rfl
  | cons hd t ih =>
    obtain ⟨k, v⟩ := hd
    have hk : k ≠ path := by
      intro h
      exact hnm (by simp [h])
    have hnt : path ∉ t.map Prod.fst := by
      intro h
      exact hnm (by simp [h])
    simp only [List.map_cons, List.filter_cons]
    rw [hf]
    simp only [decide_eq_true_eq]
    rw [if_neg hk]
    exact ih hnt

theorem filter_map_plan (f : String → StagedItem → PlanItem)
    (hf : ∀ k it, (f k it).path = k) (l : List (String × StagedItem))
    (path : String) (item : StagedItem)
    (hmem : (path, item) ∈ l) (hnodup : (l.map Prod.fst).Nodup) :
    (l.map (fun e => f e.1 e.2)).filter (fun it => it.path = path) = [f path item] := by
  induction l with
  | nil => cases hmem
  | cons hd t ih =>
    obtain ⟨k, v⟩ := hd
    simp only [List.map_cons, List.filter_cons]
    have hnodt : (t.map Prod.fst).Nodup := (List.nodup_cons.mp (by simpa using hnodup)).2
    have hkt : k ∉ t.map Prod.fst := (List.nodup_cons.mp (by simpa using hnodup)).1
    rcases List.mem_cons.mp hmem with heq | hmemt
    · have hpk : path = k := congrArg Prod.fst heq
      have hvi : item = v := congrArg Prod.snd heq
      subst hpk
      subst hvi
      rw [hf]
      rw [filter_map_plan_nil f hf t path hkt]
      simp
    · have hk : k ≠ path := by
        intro h
        subst h
        exact hkt (List.mem_map.mpr ⟨(k, item), hmemt, rfl⟩)
      rw [hf]
      simp only [decide_eq_true_eq]
      rw [if_neg hk]
      exact ih hmemt hnodt

/-- C7: for a staged modify item whose path exists in the ledger, the
plan holds exactly one action for the path — a create with reason "draft
promotion" when the ledger's remote post id is empty, an update with
reason "content changed" when the current checksum differs from the
ledger checksum, and a skip with reason "up to date" otherwise.
The diff engine is modelled from the spec (§4.4): the two-argument
`GeneratePlan` the commands call is absent from the tree. -/
theorem plan_modify_existing_ledger (articles : List (String × ArticleSum)) (st : Stage)
    (snapshots disk : Dir) (path : String) (item : StagedItem) (a : ArticleSum) (cc : String)
    (hmem : (path, item) ∈ st.items)
    (hnodup : (st.items.map Prod.fst).Nodup)
    (hop : item.operation = Operation.modify)
    (hcc : resolveChecksum item snapshots disk path = some cc)
    (hledger : lookupArticle articles path = some a) :
    (GeneratePlan articles st snapshots disk).filter (fun it => it.path = path) =
      [if a.postID = "" then
         { type := .create, path := path, reason := "draft promotion", checksum := cc }
       else if cc ≠ a.checksum then
         { type := .update, path := path, remoteID := a.postID,
           reason := "content changed", checksum := cc }
       else
         { type := .skip, path := path, remoteID := a.postID,
           reason := "up to date", checksum := cc }] := by
  unfold GeneratePlan
  rw [filter_map_plan _ (planItemFor_path articles st snapshots disk) _ path item hmem hnodup]
  congr 1
  unfold planItemFor
  rw [hop]
  rw [if_neg (by simp)]
  rw [hcc, hledger]

/-- Witness for C7: a staged modify of a ledger path whose remote id is
empty plans a create with reason "draft promotion". -/
theorem plan_modify_existing_witness :
    (GeneratePlan artsC7 stC7 [] []).filter (fun it => it.path = "p.md") =
      [{ type := .create, path := "p.md", reason := "draft promotion", checksum := "c1" }] := by
  have h := plan_modify_existing_ledger artsC7 stC7 [] [] "p.md"
    { type := .article, key := "p.md", checksum := "c1", operation := .modify }
    { postID := "", checksum := "c0" } "c1" (by decide) (by decide) rfl rfl rfl
  simpa using h

/-- C5: for a staged modify item at a path absent from the ledger, when
the `byChecksum` index maps the current checksum to an `oldPath` holding
a published ledger article and the file at `oldPath` is gone from disk or
staged for deletion, the plan holds exactly one action for the path: an
update carrying `previousPath = oldPath` and the old entry's remote id
(rename detection), not a create.
The diff engine is modelled from the spec (§4.4): the two-argument
`GeneratePlan` the commands call is absent from the tree. -/
theorem plan_rename_detected (articles : List (String × ArticleSum)) (st : Stage)
    (snapshots disk : Dir) (path : String) (item : StagedItem) (cc oldPath : String)
    (old : ArticleSum)
    (hmem : (path, item) ∈ st.items)
    (hnodup : (st.items.map Prod.fst).Nodup)
    (hop : item.operation = Operation.modify)
    (hcc : resolveChecksum item snapshots disk path = some cc)
    (habsent : lookupArticle articles path = none)
    (hby : lookupChecksum (byChecksumIndex articles) cc = some oldPath)
    (hold : lookupArticle articles oldPath = some old)
    (hremote : old.postID ≠ "")
    (hgone : (findFile disk oldPath).isNone = true ∨
             (∃ oitem, st.find oldPath = some oitem ∧ oitem.operation = Operation.delete)) :
    (GeneratePlan articles st snapshots disk).filter (fun it => it.path = path) =
      [{ type := .update, path := path, oldPath := oldPath, remoteID := old.postID,
         reason := "rename detected", checksum := cc }] := by
  unfold GeneratePlan
  rw [filter_map_plan _ (planItemFor_path articles st snapshots disk) _ path item hmem hnodup]
  congr 1
  have hcond : ((findFile disk oldPath).isNone ||
      (match st.find oldPath with
       | some old1 => decide (old1.operation = Operation.delete)
       | none => false)) = true := by
    rcases hgone with h | ⟨oitem, hfind, hdel⟩
    · rw [h]
      simp
    · rw [hfind]
      simp [hdel]
  unfold planItemFor
  rw [hop]
  rw [if_neg (by simp)]
  rw [hcc]
  simp only [habsent, hby, hold, hcond, if_true]

/-- Witness for C5: same content staged at a new path while the old path
is gone from disk plans a single rename update preserving the remote id. -/
theorem plan_rename_detected_witness :
    (GeneratePlan artsC5 stC5 [] []).filter (fun it => it.path = "new.md") =
      [{ type := .update, path := "new.md", oldPath := "old.md", remoteID := "pid",
         reason := "rename detected", checksum := "c1" }] :=
  plan_rename_detected artsC5 stC5 [] [] "new.md"
    { type := .article, key := "new.md", checksum := "c1", operation := .modify }
    "c1" "old.md" { postID := "pid", checksum := "c1" }
    (by decide) (by decide) rfl rfl rfl rfl rfl (by decide) (Or.inl rfl)

/-! ## C3: staging the state directory -/

/-- C3: the staging code in the tree does not protect the state
directory.  On a working tree holding a snapshot file under
`.hashnode/snapshots/`, `StageAdd` of that path succeeds and records a
stage item whose key lies inside the state directory — where the test
`TestStageProtection` demands the error `cannot stage files from
.hashnode directory` — and `StageDir`, whose walk descends into the
state directory, stages the same file. -/
theorem stage_protection_missing :
    exceptOk (StageAdd fsC3 stateDirPath) = true ∧
    stagedKeyPresent (StageAdd fsC3 stateDirPath) stateDirPath = true ∧
    strStartsWith stateDirPath ".hashnode/" = true ∧
    (StageDir fsC3 [stateDirPath]).1 = [stateDirPath] :=
  ⟨rfl, rfl, rfl, rfl⟩

/-! ## C1, C2, C6: the applier -/

theorem error_pair_eq {e1 e2 : ApplyErr} {t1 t2 : List (Nat × GwCall)}
    (h : ((Except.error e1 : Except ApplyErr (List LedgerUpdate)), t1)
          = (Except.error e2, t2)) :
    e1 = e2 ∧ t1 = t2 :=
  ⟨by simpa using congrArg Prod.fst h, congrArg Prod.snd h⟩

theorem execPlan_error_bound (env : ApplyEnv) (s : Sum) (st : Stage) (snapshots disk : Dir) :
    ∀ (items : List PlanItem) (i : Nat) (updates : List LedgerUpdate)
      (trace : List (Nat × GwCall)) (e : ApplyErr) (traceOut : List (Nat × GwCall)),
      execPlan env s st snapshots disk items i updates trace = (.error e, traceOut) →
      (∀ p ∈ trace, p.1 < i) →
      ∃ k, ApplyErr.itemAt e = some k ∧ i ≤ k ∧ (∀ p ∈ traceOut, p.1 ≤ k) ∧
        (ApplyErr.precondAt e = some k → ∀ p ∈ traceOut, p.1 < k) := by
  intro items
  induction items with
  | nil =>
    intro i updates trace e traceOut h _
    simp [execPlan] at h
  | cons it rest ih =>
    intro i updates trace e traceOut h h0
    have hstep : ∀ p ∈ trace, p.1 < i + 1 := fun p hp => Nat.lt_succ_of_lt (h0 p hp)
    have happ : ∀ (c : GwCall), ∀ p ∈ trace ++ [(i, c)], p.1 < i + 1 := by
      intro c p hp
      rcases List.mem_append.mp hp with hp | hp
      · exact Nat.lt_succ_of_lt (h0 p hp)
      · have hpc : p = (i, c) := by simpa using hp
        rw [hpc]
        exact Nat.lt_succ_self i
    have hle : ∀ (c : GwCall), ∀ p ∈ trace ++ [(i, c)], p.1 ≤ i := by
      intro c p hp
      rcases List.mem_append.mp hp with hp | hp
      · exact Nat.le_of_lt (h0 p hp)
      · have hpc : p = (i, c) := by simpa using hp
        rw [hpc]
    have hnow : ∀ (path : String)
        (mk : Nat → String → ApplyErr) (tr : List (Nat × GwCall)),
        (∀ p ∈ tr, p.1 ≤ i) →
        ApplyErr.itemAt (mk i path) = some i →
        (ApplyErr.precondAt (mk i path) = some i → ∀ p ∈ tr, p.1 < i) →
        ((Except.error (mk i path) : Except ApplyErr (List LedgerUpdate)), tr)
            = (.error e, traceOut) →
        ∃ k, ApplyErr.itemAt e = some k ∧ i ≤ k ∧ (∀ p ∈ traceOut, p.1 ≤ k) ∧
          (ApplyErr.precondAt e = some k → ∀ p ∈ traceOut, p.1 < k) := by
      intro path mk tr hb hitem hpre heq
      obtain ⟨he, ht⟩ := error_pair_eq heq
      subst he
      subst ht
      exact ⟨i, hitem, Nat.le_refl i, hb, hpre⟩
    have hcont : ∀ (updates1 : List LedgerUpdate) (trace1 : List (Nat × GwCall)),
        execPlan env s st snapshots disk rest (i + 1) updates1 trace1 = (.error e, traceOut) →
        (∀ p ∈ trace1, p.1 < i + 1) →
        ∃ k, ApplyErr.itemAt e = some k ∧ i ≤ k ∧ (∀ p ∈ traceOut, p.1 ≤ k) ∧
          (ApplyErr.precondAt e = some k → ∀ p ∈ traceOut, p.1 < k) := by
      intro updates1 trace1 hrec hinv
      obtain ⟨k, hk1, hk2, hk3, hk4⟩ := ih (i + 1) updates1 trace1 e traceOut hrec hinv
      exact ⟨k, hk1, Nat.le_of_succ_le hk2, hk3, hk4⟩
    simp only [execPlan] at h
    repeat' split at h
    all_goals first
      | exact hcont _ _ h hstep
      | exact hcont _ _ h (happ _)
      | exact hnow it.path ApplyErr.confirmationRequired _
          (fun p hp => Nat.le_of_lt (h0 p hp)) rfl (fun _ => h0) h
      | exact hnow it.path ApplyErr.staleStaging _
          (fun p hp => Nat.le_of_lt (h0 p hp)) rfl (fun _ => h0) h
      | exact hnow it.path ApplyErr.readContent _
          (fun p hp => Nat.le_of_lt (h0 p hp)) rfl
          (by intro hc; simp [ApplyErr.precondAt] at hc) h
      | exact hnow it.path ApplyErr.badFrontmatter _
          (fun p hp => Nat.le_of_lt (h0 p hp)) rfl
          (by intro hc; simp [ApplyErr.precondAt] at hc) h
      | exact hnow it.path ApplyErr.noTitle _
          (fun p hp => Nat.le_of_lt (h0 p hp)) rfl
          (by intro hc; simp [ApplyErr.precondAt] at hc) h
      | exact hnow it.path ApplyErr.missingPubID _
          (fun p hp => Nat.le_of_lt (h0 p hp)) rfl
          (by intro hc; simp [ApplyErr.precondAt] at hc) h
      | exact hnow it.path ApplyErr.remoteDelete _ (hle _) rfl
          (by intro hc; simp [ApplyErr.precondAt] at hc) h
      | exact hnow it.path ApplyErr.remoteUpdate _ (hle _) rfl
          (by intro hc; simp [ApplyErr.precondAt] at hc) h
      | exact hnow it.path ApplyErr.remotePublish _ (hle _) rfl
          (by intro hc; simp [ApplyErr.precondAt] at hc) h
      | exact hnow it.path ApplyErr.publishNoID _ (hle _) rfl
          (by intro hc; simp [ApplyErr.precondAt] at hc) h

theorem applyRun_error_master (env : ApplyEnv) (fs : ProjectFS) (e : ApplyErr)
    (hlock : fs.lock = false)
    (hres : (applyRun env fs).result = .error e) :
    (applyRun env fs).fs.sumFile = fs.sumFile ∧
    (applyRun env fs).fs.stageFile = fs.stageFile ∧
    (applyRun env fs).fs.snapshots = fs.snapshots ∧
    (applyRun env fs).fs.lock = false ∧
    (∀ k, ApplyErr.itemAt e = some k → ∀ p ∈ (applyRun env fs).trace, p.1 ≤ k) ∧
    (∀ k, ApplyErr.precondAt e = some k → ∀ p ∈ (applyRun env fs).trace, p.1 < k) := by
  unfold applyRun at hres ⊢
  rw [if_neg (by simp [hlock])] at hres ⊢
  by_cases h1 : ¬ env.tokenPresent = true
  · rw [if_pos h1] at hres ⊢
    refine ⟨rfl, rfl, rfl, rfl, ?_, ?_⟩ <;> simp
  · rw [if_neg h1] at hres ⊢
    by_cases h2 : fs.stageFile.items.isEmpty = true
    · rw [if_pos h2] at hres
      simp at hres
    · rw [if_neg h2] at hres ⊢
      by_cases h3 : env.applyDryRun = true
      · rw [if_pos h3] at hres
        simp at hres
      · rw [if_neg h3] at hres ⊢
        by_cases h4 : badTitles env ≠ []
        · rw [if_pos h4] at hres ⊢
          refine ⟨rfl, rfl, rfl, rfl, ?_, ?_⟩ <;> simp
        · rw [if_neg h4] at hres ⊢
          rcases hexec : execPlan env fs.sumFile fs.stageFile fs.snapshots fs.disk
            env.plan 0 [] [] with ⟨r, tr⟩
          rw [hexec] at hres
          cases r with
          | ok updates => simp at hres
          | error e1 =>
            have he : e1 = e := by
              simpa using hres
            subst he
            obtain ⟨k0, hk1, _, hk3, hk4⟩ := execPlan_error_bound env fs.sumFile
              fs.stageFile fs.snapshots fs.disk env.plan 0 [] [] e1 tr hexec (by simp)
            refine ⟨rfl, rfl, rfl, rfl, ?_, ?_⟩
            · intro k hk
              rw [hk1] at hk
              injection hk with hk
              subst hk
              exact hk3
            · intro k hk
              have hik : ApplyErr.itemAt e1 = some k := by
                cases e1 <;> simp [ApplyErr.precondAt, ApplyErr.itemAt] at hk ⊢ <;> exact hk
              rw [hk1] at hik
              injection hik with hik
              subst hik
              exact hk4 hk

theorem remoteAt_itemAt {e : ApplyErr} {k : Nat} (h : ApplyErr.remoteAt e = some k) :
    ApplyErr.itemAt e = some k := by
  cases e <;> simp [ApplyErr.remoteAt, ApplyErr.itemAt] at h ⊢ <;> exact h

/-- C1: when the remote gateway fails while executing plan item `k`, the
run aborts the remaining items — every remote call issued belongs to an
item of index at most `k` — and afterwards the ledger on disk equals the
ledger before the run, the stage on disk is unchanged, and the lock file
does not exist. -/
theorem apply_gateway_failure_atomic (env : ApplyEnv) (fs : ProjectFS)
    (e : ApplyErr) (k : Nat)
    (hlock : fs.lock = false)
    (hres : (applyRun env fs).result = .error e)
    (hrem : ApplyErr.remoteAt e = some k) :
    (applyRun env fs).fs.sumFile = fs.sumFile ∧
    (applyRun env fs).fs.stageFile = fs.stageFile ∧
    (applyRun env fs).fs.lock = false ∧
    (∀ p ∈ (applyRun env fs).trace, p.1 ≤ k) := by
  obtain ⟨hsum, hstage, _, hl, hbound, _⟩ := applyRun_error_master env fs e hlock hres
  exact ⟨hsum, hstage, hl, hbound k (remoteAt_itemAt hrem)⟩

/-- Witness for C1: two confirmed deletes, the gateway failing at the
second; the ledger and stage on disk are unchanged, the lock is gone,
and no call beyond item 1 was issued. -/
theorem apply_gateway_failure_witness :
    (applyRun envC1 fsC1).fs.sumFile = fsC1.sumFile ∧
    (applyRun envC1 fsC1).fs.stageFile = fsC1.stageFile ∧
    (applyRun envC1 fsC1).fs.lock = false ∧
    (∀ p ∈ (applyRun envC1 fsC1).trace, p.1 ≤ 1) :=
  apply_gateway_failure_atomic envC1 fsC1 (.remoteDelete 1 "b.md") 1 rfl rfl rfl

/-- C2, counterexample: a run with a successful update followed by an
unconfirmed delete is rejected with confirmation-required, yet the update
mutation was already issued — the rejected run did not leave remote state
untouched. -/
theorem apply_precondition_remote_touched :
    (applyRun envC2 fsC2).result = .error (.confirmationRequired 1 "y.md") ∧
    (applyRun envC2 fsC2).trace = [(0, GwCall.updatePost "p1" "Valid Title" [])] :=
  ⟨rfl, rfl⟩

/-- C2 (amended): the staleness check on an update and the confirmation
check on a delete run before that item's own remote call, so a run
rejected at item `k` has issued no call for item `k` or any later item
(calls for earlier items stand), and no state was written: the ledger and
stage on disk are unchanged and the lock is released. -/
theorem apply_precondition_before_call (env : ApplyEnv) (fs : ProjectFS)
    (e : ApplyErr) (k : Nat)
    (hlock : fs.lock = false)
    (hres : (applyRun env fs).result = .error e)
    (hpre : ApplyErr.precondAt e = some k) :
    (applyRun env fs).fs.sumFile = fs.sumFile ∧
    (applyRun env fs).fs.stageFile = fs.stageFile ∧
    (applyRun env fs).fs.lock = false ∧
    (∀ p ∈ (applyRun env fs).trace, p.1 < k) := by
  obtain ⟨hsum, hstage, _, hl, _, hbound⟩ := applyRun_error_master env fs e hlock hres
  exact ⟨hsum, hstage, hl, hbound k hpre⟩

/-- Witness for the amended C2: a single unconfirmed delete is rejected
with no remote call at all. -/
theorem apply_precondition_before_call_witness :
    (applyRun envC2W fsC2W).fs.sumFile = fsC2W.sumFile ∧
    (applyRun envC2W fsC2W).fs.stageFile = fsC2W.stageFile ∧
    (applyRun envC2W fsC2W).fs.lock = false ∧
    (∀ p ∈ (applyRun envC2W fsC2W).trace, p.1 < 0) :=
  apply_precondition_before_call envC2W fsC2W (.confirmationRequired 0 "y.md") 0 rfl rfl rfl

/-- C6, counterexample: in dry-run mode a planned create whose resolved
title is missing is not rejected — the run succeeds after printing the
plan, so the title precondition validation of step 4 is not performed in
dry-run. -/
theorem apply_dry_run_skips_validation :
    (applyRun envC6 fsC6).result = .ok .dryRunPreview ∧
    (applyRun envC6 fsC6).trace = [] ∧
    envC6.plan = [{ type := .create, path := "n.md" }] ∧
    (envC6.resolveTitle "n.md").length < 6 :=
  ⟨rfl, rfl, rfl, by decide⟩

/-- C6 (amended): in dry-run mode, apply acquires the lock, loads stage
and ledger, generates the plan and prints it, issuing no remote mutation
and writing no state — the ledger, stage and snapshots on disk are
unchanged and the lock is released; the title precondition validation is
not reached, whatever titles resolve to. -/
theorem apply_dry_run_preview (env : ApplyEnv) (fs : ProjectFS)
    (hdry : env.applyDryRun = true)
    (hlock : fs.lock = false)
    (htok : env.tokenPresent = true)
    (hst : fs.stageFile.items.isEmpty = false) :
    (applyRun env fs).result = .ok .dryRunPreview ∧
    (applyRun env fs).trace = [] ∧
    (applyRun env fs).fs.sumFile = fs.sumFile ∧
    (applyRun env fs).fs.stageFile = fs.stageFile ∧
    (applyRun env fs).fs.snapshots = fs.snapshots ∧
    (applyRun env fs).fs.lock = false := by
  unfold applyRun
  rw [if_neg (by simp [hlock]), if_neg (by simp [htok]), if_neg (by simp [hst]),
    if_pos hdry]
  exact ⟨rfl, rfl, rfl, rfl, rfl, rfl⟩

/-- Witness for the amended C6 at the concrete dry-run environment. -/
theorem apply_dry_run_preview_witness :
    (applyRun envC6 fsC6).result = .ok .dryRunPreview ∧
    (applyRun envC6 fsC6).trace = [] ∧
    (applyRun envC6 fsC6).fs.sumFile = fsC6.sumFile ∧
    (applyRun envC6 fsC6).fs.stageFile = fsC6.stageFile ∧
    (applyRun envC6 fsC6).fs.snapshots = fsC6.snapshots ∧
    (applyRun envC6 fsC6).fs.lock = false :=
  apply_dry_run_preview envC6 fsC6 rfl rfl rfl rfl

end HashnodeCLI
